import Mathlib

/-!
Verification of the frontend-testing-server-stubs library: a shallow
embedding of `src/stub-json-response.ts` (`parseBody`, `resolveProvider`,
`stubJsonResponse`) and `src/server-manager.ts` (`serverManager`).

External platform effects (reading the request body, `JSON.parse`, the
multipart decoder, `URLSearchParams`) are modelled as `Except`-valued
fields of the request / explicit function parameters; JavaScript
exceptions are modelled with `Except Unit`, mutable closure state with
explicit state passing.
-/

namespace ServerStubs

/-- A stand-in for parsed JSON values (the output of the platform's
`JSON.parse`; the library never inspects the structure of a parsed value,
it only passes it around). -/
inductive Jsn where
  | null
  | bool (b : Bool)
  | num (n : Int)
  | str (s : String)
  | arr (elems : List Jsn)
  | obj (fields : List (String × Jsn))

/-- `listIsPre pat l` is true when `pat` is a prefix of `l`. -/
def listIsPre : List Char → List Char → Bool
  | [], _ => true
  | _ :: _, [] => false
  | a :: as, b :: bs => a = b && listIsPre as bs

/-- `listContainsSeg pat l` is true when `pat` occurs contiguously in `l`. -/
def listContainsSeg (pat : List Char) : List Char → Bool
  | [] => listIsPre pat []
  | c :: rest => listIsPre pat (c :: rest) || listContainsSeg pat rest

/-- JavaScript's `s.includes(pat)`: substring containment. -/
def strIncludes (s pat : String) : Bool :=
  listContainsSeg pat.data s.data

/-- First-match lookup in an association list (JavaScript object read
`m[k]`, modelled on duplicate-free lists built by `setKey`). -/
def getKey {α : Type} : List (String × α) → String → Option α
  | [], _ => none
  | (k0, v0) :: rest, k => if k0 = k then some v0 else getKey rest k

/-- JavaScript object write `m[k] = v`: replace the binding for `k` in
place if present, otherwise append a new binding. -/
def setKey {α : Type} : List (String × α) → String → α → List (String × α)
  | [], k, v => [(k, v)]
  | (k0, v0) :: rest, k, v =>
    if k0 = k then (k, v) :: rest else (k0, v0) :: setKey rest k v

/-- `Object.fromEntries` / the header-collecting loop: build an object from
a list of entries, later entries overwriting earlier ones. -/
def fromEntries (l : List (String × String)) : List (String × String) :=
  l.foldl (fun m kv => setKey m kv.1 kv.2) []

/-- A multipart form-data field value: either a single scalar or an ordered
sequence of values (`FormDataEntryValue | FormDataEntryValue[]`). -/
inductive FieldVal where
  | one (v : String)
  | many (vs : List String)
deriving Repr, DecidableEq

/-- One iteration of the `formData.forEach` loop of `parseBody`:
if the key is already present, promote a scalar to a 2-element sequence or
append to an existing sequence; otherwise store the scalar. -/
def mpStep (result : List (String × FieldVal)) (kv : String × String) :
    List (String × FieldVal) :=
  match getKey result kv.1 with
  | some (.one v0) => setKey result kv.1 (.many [v0, kv.2])
  | some (.many vs) => setKey result kv.1 (.many (vs ++ [kv.2]))
  | none => setKey result kv.1 (.one kv.2)

/-- The whole `formData.forEach` accumulation of `parseBody`, folding the
multipart entries (in decode order) into an object. -/
def multipartFold (entries : List (String × String)) : List (String × FieldVal) :=
  entries.foldl mpStep []

/-- The structured value `parseBody` produces (before the final
`undefined` fallback, which is modelled by `Option BodyVal`). -/
inductive BodyVal where
  | jsonBody (j : Jsn)
  | formBody (m : List (String × String))
  | multipartBody (m : List (String × FieldVal))
  | textBody (s : String)

/-- A request entity as the handler sees it.  The results of the external
body-reading effects (`request.text()`, `request.formData()`) are fields:
`Except Unit` models that reading may throw. -/
structure Request where
  url : String
  method : String
  /-- Header entries, lower-cased names (the Fetch `Headers` object). -/
  headers : List (String × String)
  /-- Result of `await request.text()`. -/
  textResult : Except Unit String
  /-- Result of `await request.formData()`, as decoded (name, value) entries. -/
  formDataResult : Except Unit (List (String × String))
  /-- Path parameters matched by the interception engine. -/
  params : List (String × String)

/-- `request.headers.get(name) || ""`. -/
def contentTypeOf (req : Request) : String :=
  (getKey req.headers "content-type").getD ""

/-- `await request.json()`: read the body text, then `JSON.parse` it; both
steps may throw.  `jp` is the platform's `JSON.parse`. -/
def reqJson (jp : String → Except Unit Jsn) (req : Request) : Except Unit Jsn := do
  let t ← req.textResult
  jp t

/-- The body of `parseBody`'s `try` block: content-type dispatch.  `jp` is
the platform's `JSON.parse`, `psp` the platform's `URLSearchParams`
decoder.  An `Except.error` is an exception escaping the `try` block;
`Option BodyVal` is the parsed body (`none` = `undefined`). -/
def parseBodyEx (jp : String → Except Unit Jsn)
    (psp : String → List (String × String)) (req : Request) :
    Except Unit (Option BodyVal) :=
  let contentType := contentTypeOf req
  if strIncludes contentType "application/json" then do
    let j ← reqJson jp req
    pure (some (.jsonBody j))
  else if strIncludes contentType "application/x-www-form-urlencoded" then do
    let t ← req.textResult
    pure (some (.formBody (fromEntries (psp t))))
  else if strIncludes contentType "multipart/form-data" then do
    let entries ← req.formDataResult
    pure (some (.multipartBody (multipartFold entries)))
  else do
    let t ← req.textResult
    if t = "" then
      pure none
    else
      match jp t with
      | .ok j => pure (some (.jsonBody j))
      | .error _ => pure (some (.textBody t))

/-- `parseBody`: the dispatch wrapped in the top-level `try`/`catch` that
turns every escaping exception into `undefined`. -/
def parseBody (jp : String → Except Unit Jsn)
    (psp : String → List (String × String)) (req : Request) : Option BodyVal :=
  match parseBodyEx jp psp req with
  | .ok b => b
  | .error _ => none

/-- The context passed to dynamic response/status functions
(`ResponseContext` in `types.ts`). -/
structure ResponseContext where
  url : String
  method : String
  body : Option BodyVal
  headers : List (String × String)
  params : List (String × String)
  callIndex : Nat

/-- A response provider (`ResponseProvider<T>`): a literal value or a
function of the context.  A dynamic function may throw (`Except Unit`). -/
inductive Provider (T : Type) where
  | lit (t : T)
  | dyn (f : ResponseContext → Except Unit T)

/-- `resolveProvider`: invoke a dynamic provider with the context,
return a literal unchanged.  A throwing function propagates. -/
def resolveProvider {T : Type} (provider : Provider T) (ctx : ResponseContext) :
    Except Unit T :=
  match provider with
  | .lit t => .ok t
  | .dyn f => f ctx

/-- One sequential response entry (`SequentialResponse`); `R` is the type
of response bodies (JSON-serialisable values). -/
structure SeqEntry (R : Type) where
  response : R
  status : Option Nat

/-- The options of one `stubJsonResponse` registration after destructuring
defaults (`status = 200` is applied at the call site, so `status` here is
the already-defaulted provider). -/
structure StubJsonResponseOptions (R : Type) where
  response : Provider R
  status : Provider Nat
  responses : Option (List (SeqEntry R))

/-- The mutable state captured by one registration's handler closure: the
per-route call counter and the spy's recorded calls (each a
`RequestCall`: the context fields plus the raw request reference). -/
structure StubState where
  callIndex : Nat
  log : List (ResponseContext × Request)

/-- Fresh state at registration: `let callIndex = 0` and an empty spy. -/
def initialStubState : StubState := { callIndex := 0, log := [] }

/-- The response the handler hands to `HttpResponse.json`. -/
structure StubHttpResponse (R : Type) where
  body : R
  status : Nat
deriving Repr, DecidableEq

/-- The `ResponseContext` the handler assembles for a request at a given
call counter value. -/
def buildCtx (jp : String → Except Unit Jsn)
    (psp : String → List (String × String)) (req : Request) (callIndex : Nat) :
    ResponseContext :=
  { url := req.url
    method := req.method
    body := parseBody jp psp req
    headers := fromEntries req.headers
    params := req.params
    callIndex := callIndex }

/-- `singleResponse`: the `else` branch of the handler — resolve the
single `response` provider, then the single `status` provider. -/
def singleResponse {R : Type} (opts : StubJsonResponseOptions R)
    (ctx : ResponseContext) : Except Unit (StubHttpResponse R) := do
  let finalResponse ← resolveProvider opts.response ctx
  let finalStatus ← resolveProvider opts.status ctx
  pure { body := finalResponse, status := finalStatus }

/-- The response-computation step of the handler: if `responses` is
present and non-empty, select the entry at `min(callIndex, length - 1)`
with status defaulting to 200; otherwise resolve the single providers. -/
def computeResponse {R : Type} (opts : StubJsonResponseOptions R)
    (ctx : ResponseContext) : Except Unit (StubHttpResponse R) :=
  match opts.responses with
  | some rs =>
    if h : 0 < rs.length then
      let idx : Fin rs.length := ⟨min ctx.callIndex (rs.length - 1), by omega⟩
      .ok { body := (rs.get idx).response, status := (rs.get idx).status.getD 200 }
    else
      singleResponse opts ctx
  | none => singleResponse opts ctx

/-- One invocation of the handler registered by `stubJsonResponse`:
parse the body, assemble the context, call the spy (append a call
record), compute the response, and only then increment the call counter.
A thrown exception (`Except.error`) leaves the counter untouched but the
record appended. -/
def handleRequest {R : Type} (jp : String → Except Unit Jsn)
    (psp : String → List (String × String)) (opts : StubJsonResponseOptions R)
    (st : StubState) (req : Request) :
    Except Unit (StubHttpResponse R) × StubState :=
  let ctx := buildCtx jp psp req st.callIndex
  let log := st.log ++ [(ctx, req)]
  match computeResponse opts ctx with
  | .ok resp => (.ok resp, { callIndex := st.callIndex + 1, log := log })
  | .error e => (.error e, { callIndex := st.callIndex, log := log })

/-- A run of successive matched requests against one registration. -/
def runRequests {R : Type} (jp : String → Except Unit Jsn)
    (psp : String → List (String × String)) (opts : StubJsonResponseOptions R)
    (st : StubState) : List Request → StubState
  | [] => st
  | req :: rest => runRequests jp psp opts (handleRequest jp psp opts st req).2 rest

/-! ### Server manager (`server-manager.ts`) -/

/-- The module-level mutable state of `server-manager.ts`, for an abstract
server-handle type `S`.  `loaderCalls` is ghost instrumentation counting
how many times the loader has been invoked. -/
structure ServerManagerState (S : Type) where
  serverInstance : Option S
  defaultServerLoader : Option (Unit → S)
  loaderCalls : Nat

/-- The literal message of the configuration error thrown by `getServer`. -/
def noServerMsg : String :=
  "No MSW server configured. Call serverManager.setServer() or serverManager.setDefaultServerLoader() first."

/-- `serverManager.getServer()`: return the stored instance if present;
else invoke the loader, cache its result and return it; else throw the
configuration error. -/
def getServer {S : Type} (st : ServerManagerState S) :
    Except String (S × ServerManagerState S) :=
  match st.serverInstance with
  | some s => .ok (s, st)
  | none =>
    match st.defaultServerLoader with
    | some loader =>
      let s := loader ()
      .ok (s, { st with serverInstance := some s, loaderCalls := st.loaderCalls + 1 })
    | none => .error noServerMsg

/-- `serverManager.setServer(server)`. -/
def setServer {S : Type} (st : ServerManagerState S) (s : S) : ServerManagerState S :=
  { st with serverInstance := some s }

/-- `serverManager.setDefaultServerLoader(loader)`. -/
def setDefaultServerLoader {S : Type} (st : ServerManagerState S) (l : Unit → S) :
    ServerManagerState S :=
  { st with defaultServerLoader := some l }

/-- `serverManager.hasServer()`. -/
def hasServer {S : Type} (st : ServerManagerState S) : Bool :=
  st.serverInstance.isSome || st.defaultServerLoader.isSome

/-- `serverManager.reset()`: clear both slots. -/
def reset {S : Type} (st : ServerManagerState S) : ServerManagerState S :=
  { st with serverInstance := none, defaultServerLoader := none }

/-- A response-computation step that cannot throw (e.g. literal providers,
or configured sequential responses). -/
def neverThrows {R : Type} (opts : StubJsonResponseOptions R) : Prop :=
  ∀ ctx, ∃ resp, computeResponse opts ctx = .ok resp

/-! ### Concrete sample inputs used to instantiate the theorems -/

/-- A `JSON.parse` instance that rejects every input string. -/
def jp0 : String → Except Unit Jsn := fun _ => .error ()

/-- A `URLSearchParams` decoder instance returning no entries. -/
def psp0 : String → List (String × String) := fun _ => []

/-- A plain GET request with no body and no content type. -/
def reqPlain : Request :=
  { url := "https://api.example.com/users", method := "GET", headers := []
    textResult := .ok "", formDataResult := .ok [], params := [] }

/-- A request declaring `application/json` whose body text is not valid
JSON (under the parser instance `jp0`). -/
def reqBadJson : Request :=
  { url := "https://api.example.com/users", method := "POST"
    headers := [("content-type", "application/json")]
    textResult := .ok "\x7boops", formDataResult := .ok [], params := [] }

/-- The decoded entries of a multipart body with a repeated field name. -/
def mpEntries : List (String × String) := [("tag", "a"), ("n", "1"), ("tag", "b")]

/-- A multipart/form-data request whose decoded entries are `mpEntries`. -/
def reqMulti : Request :=
  { url := "https://api.example.com/upload", method := "POST"
    headers := [("content-type", "multipart/form-data; boundary=x")]
    textResult := .ok "raw", formDataResult := .ok mpEntries, params := [] }

/-- A registration with two sequential responses configured. -/
def seqOpts : StubJsonResponseOptions Nat :=
  { response := .lit 0, status := .lit 200
    responses := some [⟨10, none⟩, ⟨20, some 503⟩] }

/-- Like `seqOpts` but with different (never consulted) single providers. -/
def seqOptsB : StubJsonResponseOptions Nat :=
  { response := .lit 99, status := .lit 404
    responses := some [⟨10, none⟩, ⟨20, some 503⟩] }

/-- A registration with a static response and status only. -/
def singleOpts : StubJsonResponseOptions Nat :=
  { response := .lit 42, status := .lit 201, responses := none }

/-- A registration whose dynamic response function always throws. -/
def throwOpts : StubJsonResponseOptions Nat :=
  { response := .dyn (fun _ => .error ()), status := .lit 200, responses := none }

/-- A sample server loader. -/
def loaderW : Unit → Nat := fun _ => 7

/-- Registry state holding only the loader `loaderW`. -/
def smW0 : ServerManagerState Nat := ⟨none, some loaderW, 0⟩

/-- Registry state after `getServer` has run the loader once. -/
def smW1 : ServerManagerState Nat := ⟨some 7, some loaderW, 1⟩

/-- Registry state with neither a server nor a loader configured. -/
def smEmpty : ServerManagerState Nat := ⟨none, none, 0⟩

/-- A request with no content type whose body read throws. -/
def reqReadFail : Request :=
  { url := "https://api.example.com/users", method := "POST", headers := []
    textResult := .error (), formDataResult := .error (), params := [] }

/-- A sample run of three matched requests. -/
def reqsW : List Request := [reqPlain, reqBadJson, reqMulti]

/-- The ordered multiset of values a multipart field value stands for. -/
def fvVals : Option FieldVal → List String
  | none => []
  | some (.one v) => [v]
  | some (.many vs) => vs

/-- The multipart field value an ordered list of occurrences produces:
none for no occurrence, a scalar for exactly one, the sequence itself
otherwise. -/
def fvOf : List String → Option FieldVal
  | [] => none
  | [v] => some (.one v)
  | vs => some (.many vs)

/-- Well-formedness of a multipart accumulator: every sequence value has
at least two elements (scalars are only promoted on the first repeat). -/
def mpWf (m : List (String × FieldVal)) : Prop :=
  ∀ k vs, getKey m k = some (.many vs) → 2 ≤ vs.length

/-! ### Helper lemmas about the handler step -/

theorem handleRequest_log_eq {R : Type} (jp : String → Except Unit Jsn)
    (psp : String → List (String × String)) (opts : StubJsonResponseOptions R)
    (st : StubState) (req : Request) :
    (handleRequest jp psp opts st req).2.log =
      st.log ++ [(buildCtx jp psp req st.callIndex, req)] := by
  cases h : computeResponse opts (buildCtx jp psp req st.callIndex) <;>
    simp [handleRequest, h]

theorem handleRequest_callIndex_of_ok {R : Type} (jp : String → Except Unit Jsn)
    (psp : String → List (String × String)) (opts : StubJsonResponseOptions R)
    (st : StubState) (req : Request) (resp : StubHttpResponse R)
    (h : (handleRequest jp psp opts st req).1 = .ok resp) :
    (handleRequest jp psp opts st req).2.callIndex = st.callIndex + 1 := by
  cases hc : computeResponse opts (buildCtx jp psp req st.callIndex) <;>
    simp_all [handleRequest, hc]

theorem handleRequest_callIndex_of_error {R : Type} (jp : String → Except Unit Jsn)
    (psp : String → List (String × String)) (opts : StubJsonResponseOptions R)
    (st : StubState) (req : Request) (e : Unit)
    (h : (handleRequest jp psp opts st req).1 = .error e) :
    (handleRequest jp psp opts st req).2.callIndex = st.callIndex := by
  cases hc : computeResponse opts (buildCtx jp psp req st.callIndex) <;>
    simp_all [handleRequest, hc]

/-! ### Claim theorems -/

/-- C1: with a non-empty sequential-response list of length N configured,
the request at call index `i` is answered with the entry at index
`min i (N - 1)` (so any call at index ≥ N - 1 gets the final entry), and
the entry's status defaults to 200 when omitted. -/
theorem seq_responses_clamped {R : Type} (jp : String → Except Unit Jsn)
    (psp : String → List (String × String)) (opts : StubJsonResponseOptions R)
    (rs : List (SeqEntry R)) (st : StubState) (req : Request)
    (hrs : opts.responses = some rs) (hne : 0 < rs.length) :
    (handleRequest jp psp opts st req).1 =
      .ok { body := (rs.get ⟨min st.callIndex (rs.length - 1), by omega⟩).response
            status := ((rs.get ⟨min st.callIndex (rs.length - 1), by omega⟩).status).getD 200 } ∧
    (rs.length - 1 ≤ st.callIndex →
      (handleRequest jp psp opts st req).1 =
        .ok { body := (rs.get ⟨rs.length - 1, by omega⟩).response
              status := ((rs.get ⟨rs.length - 1, by omega⟩).status).getD 200 }) := by
  obtain ⟨resp, stat, orss⟩ := opts
  cases hrs
  constructor
  · simp [handleRequest, computeResponse, hne, buildCtx]
  · intro hge
    simp [handleRequest, computeResponse, hne, buildCtx, Nat.min_eq_right hge]

/-- Witness for C1 at a concrete over-length call index. -/
theorem seq_responses_clamped_witness :
    (handleRequest jp0 psp0 seqOpts ⟨5, []⟩ reqPlain).1 = .ok ⟨20, 503⟩ := by
  have h := seq_responses_clamped jp0 psp0 seqOpts _ ⟨5, []⟩ reqPlain rfl (by decide)
  exact h.1

/-- C5: when the sequential-response list is present and non-empty it is
used exclusively — the single response/status providers are never
consulted (any two registrations sharing that list behave identically);
when the list is absent or empty, the single providers are resolved. -/
theorem responses_precedence {R : Type} (jp : String → Except Unit Jsn)
    (psp : String → List (String × String)) (o1 o2 : StubJsonResponseOptions R)
    (st : StubState) (req : Request) :
    (∀ rs, o1.responses = some rs → 0 < rs.length → o2.responses = o1.responses →
        handleRequest jp psp o1 st req = handleRequest jp psp o2 st req) ∧
    ((o1.responses = none ∨ o1.responses = some []) →
        (handleRequest jp psp o1 st req).1 =
          singleResponse o1 (buildCtx jp psp req st.callIndex)) := by
  constructor
  · intro rs h1 hlen h2
    rw [h1] at h2
    have hc : ∀ ctx, computeResponse o1 ctx = computeResponse o2 ctx := by
      intro ctx
      simp [computeResponse, h1, h2, hlen]
    simp [handleRequest, hc]
  · rintro (h | h) <;>
      cases hsr : singleResponse o1 (buildCtx jp psp req st.callIndex) <;>
        simp [handleRequest, computeResponse, h, hsr]

/-- Witness for C5: a concrete pair of registrations sharing the same
sequential list, and a concrete single-provider registration. -/
theorem responses_precedence_witness :
    handleRequest jp0 psp0 seqOpts initialStubState reqPlain =
      handleRequest jp0 psp0 seqOptsB initialStubState reqPlain ∧
    (handleRequest jp0 psp0 singleOpts initialStubState reqPlain).1 =
      singleResponse singleOpts (buildCtx jp0 psp0 reqPlain 0) := by
  refine ⟨(responses_precedence jp0 psp0 seqOpts seqOptsB _ _).1 _ rfl (by decide) rfl, ?_⟩
  exact (responses_precedence jp0 psp0 singleOpts seqOptsB initialStubState reqPlain).2
    (Or.inl rfl)

/-- C6: a call record (the assembled context plus the raw request) is
appended to the spy's log unconditionally, before response computation —
also when the computation later throws — and exactly one record is
appended per matched request. -/
theorem call_record_appended {R : Type} (jp : String → Except Unit Jsn)
    (psp : String → List (String × String)) (opts : StubJsonResponseOptions R)
    (st : StubState) (req : Request) :
    (handleRequest jp psp opts st req).2.log =
      st.log ++ [(buildCtx jp psp req st.callIndex, req)] ∧
    (handleRequest jp psp opts st req).2.log.length = st.log.length + 1 := by
  refine ⟨handleRequest_log_eq jp psp opts st req, ?_⟩
  rw [handleRequest_log_eq jp psp opts st req]
  simp

/-- C10: when the dynamic response/status resolution throws, the call
counter is not incremented — the record for the failed request is still
appended, and the next matched request observes the same `callIndex`. -/
theorem throw_skips_increment {R : Type} (jp : String → Except Unit Jsn)
    (psp : String → List (String × String)) (opts : StubJsonResponseOptions R)
    (st : StubState) (req : Request) (e : Unit)
    (h : (handleRequest jp psp opts st req).1 = .error e) :
    (handleRequest jp psp opts st req).2.callIndex = st.callIndex ∧
    (handleRequest jp psp opts st req).2.log =
      st.log ++ [(buildCtx jp psp req st.callIndex, req)] ∧
    ∀ req2 : Request,
      (handleRequest jp psp opts (handleRequest jp psp opts st req).2 req2).2.log =
        st.log ++ [(buildCtx jp psp req st.callIndex, req)] ++
          [(buildCtx jp psp req2 st.callIndex, req2)] := by
  refine ⟨handleRequest_callIndex_of_error jp psp opts st req e h,
    handleRequest_log_eq jp psp opts st req, ?_⟩
  intro req2
  rw [handleRequest_log_eq jp psp opts (handleRequest jp psp opts st req).2 req2,
    handleRequest_log_eq jp psp opts st req,
    handleRequest_callIndex_of_error jp psp opts st req e h]

/-- Witness for C10 at a registration whose response function throws. -/
theorem throw_skips_increment_witness :
    (handleRequest jp0 psp0 throwOpts ⟨3, []⟩ reqPlain).2.callIndex = 3 ∧
    (handleRequest jp0 psp0 throwOpts ⟨3, []⟩ reqPlain).2.log =
      [] ++ [(buildCtx jp0 psp0 reqPlain 3, reqPlain)] := by
  have h := throw_skips_increment jp0 psp0 throwOpts ⟨3, []⟩ reqPlain () rfl
  exact ⟨h.1, h.2.1⟩

/-- C7: two successive `getServer()` calls with no intervening mutation
return the identical handle and state — the stored handle is returned if
present, otherwise the loader runs exactly once and its result is cached —
so the loader is invoked at most once per cycle between resets. -/
theorem getServer_idempotent {S : Type} (st st1 : ServerManagerState S) (s1 : S)
    (h : getServer st = .ok (s1, st1)) :
    getServer st1 = .ok (s1, st1) ∧ st1.loaderCalls ≤ st.loaderCalls + 1 := by
  obtain ⟨inst, loader, calls⟩ := st
  cases inst with
  | some s =>
    simp only [getServer, Except.ok.injEq, Prod.mk.injEq] at h
    obtain ⟨rfl, rfl⟩ := h
    exact ⟨rfl, Nat.le_succ _⟩
  | none =>
    cases loader with
    | some l =>
      simp only [getServer, Except.ok.injEq, Prod.mk.injEq] at h
      obtain ⟨rfl, rfl⟩ := h
      exact ⟨rfl, Nat.le_refl _⟩
    | none => simp [getServer] at h

/-- Witness for C7: a registry configured with only a loader. -/
theorem getServer_idempotent_witness :
    getServer smW1 = .ok (7, smW1) ∧ smW1.loaderCalls ≤ smW0.loaderCalls + 1 :=
  getServer_idempotent smW0 smW1 7 rfl

/-- C8: `getServer()` fails, with the fixed literal message naming
`setServer` and `setDefaultServerLoader`, exactly when neither a server
handle nor a loader is configured; after `reset()` clears both slots it
fails this way again. -/
theorem getServer_error_iff {S : Type} (st : ServerManagerState S) :
    ((∃ e, getServer st = .error e) ↔
      st.serverInstance = none ∧ st.defaultServerLoader = none) ∧
    (∀ e, getServer st = .error e → e = noServerMsg) ∧
    getServer (reset st) = .error noServerMsg ∧
    strIncludes noServerMsg "serverManager.setServer()" = true ∧
    strIncludes noServerMsg "serverManager.setDefaultServerLoader()" = true := by
  obtain ⟨inst, loader, calls⟩ := st
  refine ⟨?_, ?_, ?_, by decide, by decide⟩
  · cases inst <;> cases loader <;> simp [getServer]
  · intro e he
    cases inst <;> cases loader <;> simp_all [getServer]
  · simp [getServer, reset]

/-- Witness for C8: the empty registry fails with the fixed message. -/
theorem getServer_error_iff_witness :
    getServer smEmpty = .error noServerMsg := by
  have h := getServer_error_iff (S := Nat) smEmpty
  obtain ⟨e, he⟩ := h.1.mpr ⟨rfl, rfl⟩
  rw [h.2.1 e he] at he
  exact he

/-- C2 counterexample: for a concrete `application/json` request whose
body is not valid JSON, the parse error escapes the dispatch
(`parseBodyEx` throws) but is caught by the top-level catch — `parseBody`
returns `undefined` and the enclosing request handling succeeds (and even
increments the call counter), instead of failing the task. -/
theorem json_error_not_propagated_cex :
    parseBodyEx jp0 psp0 reqBadJson = .error () ∧
    parseBody jp0 psp0 reqBadJson = none ∧
    (handleRequest jp0 psp0 singleOpts initialStubState reqBadJson).1 = .ok ⟨42, 201⟩ ∧
    (handleRequest jp0 psp0 singleOpts initialStubState reqBadJson).2.callIndex = 1 :=
  ⟨rfl, rfl, rfl, rfl⟩

/-- C2 (amended): for every request whose declared content type contains
`application/json` and whose body fails to parse as JSON, the failure is
caught by `parseBody`'s top-level catch and the parsed body is
`undefined` — the error does not propagate out of body parsing. -/
theorem json_error_caught (jp : String → Except Unit Jsn)
    (psp : String → List (String × String)) (req : Request)
    (hct : strIncludes (contentTypeOf req) "application/json" = true)
    (herr : reqJson jp req = .error ()) :
    parseBodyEx jp psp req = .error () ∧ parseBody jp psp req = none := by
  have h1 : parseBodyEx jp psp req = .error () := by
    simp [parseBodyEx, hct, herr]
  exact ⟨h1, by simp [parseBody, h1]⟩

/-- Witness for the amended C2 at the concrete malformed-JSON request. -/
theorem json_error_caught_witness :
    parseBodyEx jp0 psp0 reqBadJson = Except.error () ∧
    parseBody jp0 psp0 reqBadJson = none :=
  json_error_caught jp0 psp0 reqBadJson (by decide) rfl

/-- C3: body parsing is total — any exception escaping the content-type
dispatch is caught at the top level and the overall parse result is
`undefined`, so a body-parsing failure never aborts request handling. -/
theorem parse_errors_caught (jp : String → Except Unit Jsn)
    (psp : String → List (String × String)) (req : Request) (e : Unit)
    (h : parseBodyEx jp psp req = .error e) :
    parseBody jp psp req = none := by
  simp [parseBody, h]

/-- Witness for C3 at a request whose body read itself throws. -/
theorem parse_errors_caught_witness :
    parseBody jp0 psp0 reqReadFail = none :=
  parse_errors_caught jp0 psp0 reqReadFail () rfl

/-! ### Lemmas for the multipart accumulation -/

theorem getKey_setKey_self {α : Type} (m : List (String × α)) (k : String) (v : α) :
    getKey (setKey m k v) k = some v := by
  induction m with
  | nil => simp [setKey, getKey]
  | cons p rest ih =>
    by_cases h : p.1 = k
    · simp [setKey, getKey, h]
    · simp [setKey, getKey, h, ih]

theorem getKey_setKey_ne {α : Type} (m : List (String × α)) (k : String) (v : α)
    (k' : String) (h : k' ≠ k) : getKey (setKey m k v) k' = getKey m k' := by
  have h' : ¬k = k' := fun he => h he.symm
  induction m with
  | nil => simp [setKey, getKey, h']
  | cons p rest ih =>
    by_cases hp : p.1 = k
    · simp [setKey, getKey, hp, h']
    · simp [setKey, getKey, hp, ih]

theorem fvVals_getKey_mpStep (m : List (String × FieldVal)) (kv : String × String)
    (k : String) :
    fvVals (getKey (mpStep m kv) k) =
      fvVals (getKey m k) ++ (if kv.1 = k then [kv.2] else []) := by
  by_cases hk : kv.1 = k
  · subst hk
    unfold mpStep
    cases hg : getKey m kv.1 with
    | none => simp [hg, getKey_setKey_self, fvVals]
    | some fv => cases fv <;> simp [hg, getKey_setKey_self, fvVals]
  · have hne : k ≠ kv.1 := fun he => hk he.symm
    unfold mpStep
    cases hg : getKey m kv.1 with
    | none => simp [hk, getKey_setKey_ne _ _ _ _ hne]
    | some fv => cases fv <;> simp [hk, getKey_setKey_ne _ _ _ _ hne]

theorem mpWf_mpStep (m : List (String × FieldVal)) (kv : String × String)
    (h : mpWf m) : mpWf (mpStep m kv) := by
  intro k vs hget
  unfold mpStep at hget
  cases hg : getKey m kv.1 with
  | none =>
    rw [hg] at hget
    by_cases hk : kv.1 = k
    · subst hk
      rw [getKey_setKey_self] at hget
      cases hget
    · rw [getKey_setKey_ne _ _ _ _ (fun he => hk he.symm)] at hget
      exact h k vs hget
  | some fv =>
    rw [hg] at hget
    by_cases hk : kv.1 = k
    · subst hk
      cases fv with
      | one v0 =>
        rw [getKey_setKey_self] at hget
        cases hget
        simp
      | many vs0 =>
        rw [getKey_setKey_self] at hget
        cases hget
        have := h kv.1 vs0 hg
        simp
        omega
    · cases fv <;>
        · rw [getKey_setKey_ne _ _ _ _ (fun he => hk he.symm)] at hget
          exact h k vs hget

theorem mpWf_foldl (es : List (String × String)) :
    ∀ m : List (String × FieldVal), mpWf m → mpWf (es.foldl mpStep m) := by
  induction es with
  | nil => intro m h; simpa using h
  | cons kv rest ih =>
    intro m h
    rw [List.foldl_cons]
    exact ih (mpStep m kv) (mpWf_mpStep m kv h)

theorem fvOf_fvVals (x : Option FieldVal)
    (h : ∀ vs, x = some (.many vs) → 2 ≤ vs.length) : fvOf (fvVals x) = x := by
  match x with
  | none => rfl
  | some (.one v) => rfl
  | some (.many vs) =>
    have h2 := h vs rfl
    match vs with
    | a :: b :: rest => rfl

theorem multipartFold_vals_aux (es : List (String × String)) :
    ∀ (m : List (String × FieldVal)) (k : String),
      fvVals (getKey (es.foldl mpStep m) k) =
        fvVals (getKey m k) ++ (es.filter (fun kv => kv.1 == k)).map Prod.snd := by
  induction es with
  | nil => intro m k; simp
  | cons kv rest ih =>
    intro m k
    rw [List.foldl_cons, ih (mpStep m kv) k, fvVals_getKey_mpStep, List.filter_cons]
    by_cases h : kv.1 = k <;> simp [h]

/-- C9: under a `multipart/form-data` content type (reached by the
dispatch, i.e. the earlier branches do not match), `parseBody` maps each
field name to its value; a field occurring once stays scalar, a repeated
field maps to the ordered sequence of all its values. -/
theorem multipart_repeats_promote (jp : String → Except Unit Jsn)
    (psp : String → List (String × String)) (req : Request)
    (entries : List (String × String)) (key : String)
    (h1 : strIncludes (contentTypeOf req) "application/json" = false)
    (h2 : strIncludes (contentTypeOf req) "application/x-www-form-urlencoded" = false)
    (h3 : strIncludes (contentTypeOf req) "multipart/form-data" = true)
    (hfd : req.formDataResult = .ok entries) :
    parseBody jp psp req = some (.multipartBody (multipartFold entries)) ∧
    getKey (multipartFold entries) key =
      fvOf ((entries.filter (fun kv => kv.1 == key)).map Prod.snd) := by
  constructor
  · simp [parseBody, parseBodyEx, h1, h2, h3, hfd]
  · have hw : mpWf (multipartFold entries) :=
      mpWf_foldl entries [] (by intro k vs h; simp [getKey] at h)
    rw [← fvOf_fvVals (getKey (multipartFold entries) key) (fun vs h => hw key vs h)]
    unfold multipartFold
    rw [multipartFold_vals_aux entries [] key]
    simp [getKey, fvVals]

/-- Witness for C9 at a concrete multipart request with field `tag`
repeated twice and field `n` occurring once. -/
theorem multipart_repeats_promote_witness :
    parseBody jp0 psp0 reqMulti =
      some (.multipartBody [("tag", .many ["a", "b"]), ("n", .one "1")]) ∧
    getKey (multipartFold mpEntries) "tag" = some (.many ["a", "b"]) ∧
    getKey (multipartFold mpEntries) "n" = some (.one "1") := by
  have ht := multipart_repeats_promote jp0 psp0 reqMulti mpEntries "tag"
    (by decide) (by decide) (by decide) rfl
  have hn := multipart_repeats_promote jp0 psp0 reqMulti mpEntries "n"
    (by decide) (by decide) (by decide) rfl
  exact ⟨ht.1, ht.2, hn.2⟩

theorem runRequests_invariant {R : Type} (jp : String → Except Unit Jsn)
    (psp : String → List (String × String)) (opts : StubJsonResponseOptions R)
    (hok : neverThrows opts) (reqs : List Request) :
    ∀ st : StubState,
      st.callIndex = st.log.length →
      st.log.map (fun rec => rec.1.callIndex) = List.range st.log.length →
      (runRequests jp psp opts st reqs).callIndex = st.log.length + reqs.length ∧
      (runRequests jp psp opts st reqs).log.length = st.log.length + reqs.length ∧
      (runRequests jp psp opts st reqs).log.map (fun rec => rec.1.callIndex) =
        List.range (st.log.length + reqs.length) := by
  induction reqs with
  | nil =>
    intro st h1 h2
    simpa [runRequests] using ⟨h1, h2⟩
  | cons r rest ih =>
    intro st h1 h2
    obtain ⟨resp, hresp⟩ := hok (buildCtx jp psp r st.callIndex)
    have h2' : (handleRequest jp psp opts st r).2 =
        ⟨st.callIndex + 1, st.log ++ [(buildCtx jp psp r st.callIndex, r)]⟩ := by
      simp [handleRequest, hresp]
    have i1 : ((handleRequest jp psp opts st r).2).callIndex =
        ((handleRequest jp psp opts st r).2).log.length := by
      rw [h2']
      simp [h1]
    have i2 : ((handleRequest jp psp opts st r).2).log.map
        (fun rec => rec.1.callIndex) =
        List.range ((handleRequest jp psp opts st r).2).log.length := by
      rw [h2']
      simp [buildCtx, h2, List.range_succ, h1]
    obtain ⟨a1, a2, a3⟩ := ih (handleRequest jp psp opts st r).2 i1 i2
    have hlen : ((handleRequest jp psp opts st r).2).log.length = st.log.length + 1 := by
      rw [h2']
      simp
    rw [hlen] at a1 a2 a3
    have harith : st.log.length + 1 + rest.length = st.log.length + (rest.length + 1) := by
      omega
    rw [harith] at a1 a2 a3
    refine ⟨?_, ?_, ?_⟩ <;> simp only [runRequests, List.length_cons]
    · exact a1
    · exact a2
    · exact a3

/-- C4: starting from the fresh registration state, the per-route call
counter counts exactly the matched and fully-handled requests, and the
`callIndex` recorded in each request's context equals that request's
zero-based ordinal among the requests matched by this registration. -/
theorem callIndex_is_ordinal {R : Type} (jp : String → Except Unit Jsn)
    (psp : String → List (String × String)) (opts : StubJsonResponseOptions R)
    (reqs : List Request) (hok : neverThrows opts) :
    (runRequests jp psp opts initialStubState reqs).callIndex = reqs.length ∧
    (runRequests jp psp opts initialStubState reqs).log.length = reqs.length ∧
    (runRequests jp psp opts initialStubState reqs).log.map
        (fun rec => rec.1.callIndex) = List.range reqs.length := by
  have h := runRequests_invariant jp psp opts hok reqs initialStubState rfl rfl
  simpa [initialStubState] using h

/-- Witness for C4: three concrete requests against a static
registration produce call indices 0, 1, 2. -/
theorem callIndex_is_ordinal_witness :
    (runRequests jp0 psp0 singleOpts initialStubState reqsW).callIndex = 3 ∧
    (runRequests jp0 psp0 singleOpts initialStubState reqsW).log.length = 3 ∧
    (runRequests jp0 psp0 singleOpts initialStubState reqsW).log.map
        (fun rec => rec.1.callIndex) = [0, 1, 2] := by
  have h := callIndex_is_ordinal jp0 psp0 singleOpts reqsW
    (fun ctx => ⟨⟨42, 201⟩, rfl⟩)
  refine ⟨h.1, h.2.1, ?_⟩
  rw [h.2.2]
  rfl

end ServerStubs
